import Mathlib

/-
Shallow embedding of tools/harbor_sync/webhook_receiver.py.

The Python module receives Harbor registry webhook events, normalizes the
loosely structured JSON payloads into (repository, tag) pairs, and applies
idempotent state transitions against four Postgres tables (repos, tags,
image_pulls, allowed_images).

Decoded JSON / Python values are embedded as the inductive type PyVal, with
Python truthiness and dict/attribute semantics made explicit.  Operations
that can raise in Python (attribute access on a non-dict, iteration over a
non-iterable) run in an Except monad.  The database is embedded as lists of
rows; SQL statements become list transformations, with NULL-valued
parameters represented as Option.none (a SQL comparison with NULL matches
no row).  Timestamps are abstract Nat values.
-/

/-- Embedded Python/JSON value as handled by the webhook receiver. -/
inductive PyVal where
  | none : PyVal
  | str : String → PyVal
  | int : Int → PyVal
  | list : List PyVal → PyVal
  | dict : List (String × PyVal) → PyVal

/-- Exceptions the payload-handling code can raise. -/
inductive PyErr where
  | attributeError : PyErr
  | typeError : PyErr
deriving DecidableEq

/-- Python truthiness of an embedded value. -/
def PyVal.truthy : PyVal → Bool
  | .none => false
  | .str s => !(s == "")
  | .int n => !(n == 0)
  | .list xs => !xs.isEmpty
  | .dict m => !m.isEmpty

def PyVal.isDict : PyVal → Bool
  | .dict _ => true
  | _ => false

def PyVal.isList : PyVal → Bool
  | .list _ => true
  | _ => false

/-- First binding of a key in a dict's entry list (Python dict lookup). -/
def lookupKey : List (String × PyVal) → String → Option PyVal
  | [], _ => Option.none
  | (k, v) :: rest, key => if k == key then some v else lookupKey rest key

/-- Python d.get(k) on a value statically known to be a dict
(missing key yields None); returns None for non-dicts, so use only at
source points guarded by an isinstance check or a preceding .get. -/
def PyVal.dget : PyVal → String → PyVal
  | .dict m, k => (lookupKey m k).getD .none
  | _, _ => .none

/-- Python v.get(k): AttributeError unless v is a dict. -/
def PyVal.get? : PyVal → String → Except PyErr PyVal
  | .dict m, k => .ok ((lookupKey m k).getD .none)
  | _, _ => .error .attributeError

/-- Python v.get(k, default): the default applies only when the key is
absent, not when it is bound to None. -/
def PyVal.getDefault? : PyVal → String → PyVal → Except PyErr PyVal
  | .dict m, k, d => .ok ((lookupKey m k).getD d)
  | _, _, _ => .error .attributeError

/-- Python k in v for the dict case.  At every source occurrence the
operand has already survived a .get call, so it is a dict. -/
def hasKey (v : PyVal) (k : String) : Bool :=
  match v with
  | .dict m => m.any (fun kv => kv.1 == k)
  | _ => false

/-- Python a or b with short-circuit truthiness, lifted over Except:
when a is truthy, b is never forced, so an error in b is not raised. -/
def orTruthyM (a b : Except PyErr PyVal) : Except PyErr PyVal := do
  let va ← a
  if va.truthy then pure va else b

/-- Python iteration (for t in v): lists yield elements, strings yield
one-character strings, dicts yield their keys; other values raise. -/
def pyIterate : PyVal → Except PyErr (List PyVal)
  | .list xs => .ok xs
  | .str s => .ok (s.data.map (fun c => .str (String.mk [c])))
  | .dict m => .ok (m.map (fun kv => .str kv.1))
  | _ => .error .typeError

/-- The comprehension body t.get('name') if isinstance(t, dict) else t. -/
def tagNameOf (t : PyVal) : PyVal :=
  if t.isDict then t.dget "name" else t

/-- payload.get('repository', \x7b\x7d).get('name') as it appears in the source. -/
def getOuterRepoName (payload : PyVal) : Except PyErr PyVal := do
  let r ← payload.getDefault? "repository" (.dict [])
  r.get? "name"

/-- parse_harbor_payload (webhook_receiver.py lines 126-157): normalize a
push payload into (repo, tag) result pairs, probing the nested resource
shape, the flat repository.name / push_data.tag shape, and the artifact
shape, in that order. -/
def parse_harbor_payload (payload : PyVal) : Except PyErr (List (PyVal × PyVal)) := do
  let event_data ← orTruthyM (orTruthyM (payload.get? "event_data") (payload.get? "artifact")) (pure payload)
  let resource ← if event_data.isDict then event_data.get? "resource" else pure .none
  if resource.truthy then
    let repo ← orTruthyM (orTruthyM (resource.get? "repository") (resource.get? "repo")) (getOuterRepoName payload)
    let tags :=
      if hasKey resource "tag" && (resource.dget "tag").truthy then
        [resource.dget "tag"]
      else if hasKey resource "tags" && (resource.dget "tags").isList then
        (match resource.dget "tags" with | .list xs => xs | _ => []).map tagNameOf
      else []
    if repo.truthy && !tags.isEmpty then
      return tags.map (fun t => (repo, t))
  let repo ← getOuterRepoName payload
  let push_data ← orTruthyM (orTruthyM (payload.get? "push_data") (payload.get? "push")) (pure (.dict []))
  let tag ← push_data.get? "tag"
  if repo.truthy && tag.truthy then
    return [(repo, tag)]
  let art ← payload.get? "artifact"
  if art.isDict then
    let repo2 ← orTruthyM (pure (art.dget "repository")) (getOuterRepoName payload)
    if hasKey art "tags" then
      let ts ← pyIterate (art.dget "tags")
      return ts.map (fun t => (repo2, tagNameOf t))
  return []

/-- parse_harbor_delete (webhook_receiver.py lines 160-180): normalize a
delete payload, probing only the artifact shape and then the flat
repository.name shape; a repository-level delete yields a pair with a
None tag. -/
def parse_harbor_delete (payload : PyVal) : Except PyErr (List (PyVal × PyVal)) := do
  let art ← payload.get? "artifact"
  if art.isDict then
    let repo ← orTruthyM (pure (art.dget "repository")) (getOuterRepoName payload)
    let tags := if (art.dget "tags").truthy then art.dget "tags" else .list []
    if tags.truthy then
      let ts ← pyIterate tags
      return ts.map (fun t => (repo, tagNameOf t))
    if repo.truthy then
      return [(repo, .none)]
  let repo ← getOuterRepoName payload
  if repo.truthy then
    let push_data ← orTruthyM (orTruthyM (payload.get? "push_data") (payload.get? "push")) (pure (.dict []))
    let tag ← push_data.get? "tag"
    return [(repo, tag)]
  return []

/- =====================  Database model  ===================== -/

structure RepoRow where
  id : Nat
  full_name : String
deriving DecidableEq

structure TagRow where
  id : Nat
  repository_id : Nat
  tag : String
deriving DecidableEq

structure PullRow where
  tag_id : Nat
  is_pulled : Bool
  last_pulled_at : Nat
deriving DecidableEq

structure AllowedImageRow where
  name : String
  tag : String
  tag_id : Option Nat
  raw_name : Option String
  raw_tag : Option String
  deleted_at : Option Nat
  harbor_deleted : Bool
  harbor_deleted_at : Option Nat
deriving DecidableEq

/-- The four tables touched by the receiver, plus the id sequences backing
the repos and tags primary keys. -/
structure DB where
  repos : List RepoRow
  tags : List TagRow
  image_pulls : List PullRow
  allowed_images : List AllowedImageRow
  nextRepoId : Nat
  nextTagId : Nat
deriving DecidableEq

/-- SQL equality of a text column with a parameter: a NULL parameter
(absent Python value) compares unequal to every row. -/
def eqParam (v : String) (p : Option String) : Bool :=
  match p with
  | some s => v == s
  | Option.none => false

/-- SELECT id FROM repos WHERE full_name = name (first matching row). -/
def selectRepoId (repos : List RepoRow) (full_name : String) : Option Nat :=
  (repos.find? (fun r => r.full_name == full_name)).map (fun r => r.id)

/-- Same SELECT with a nullable parameter. -/
def selectRepoIdP (repos : List RepoRow) (p : Option String) : Option Nat :=
  (repos.find? (fun r => eqParam r.full_name p)).map (fun r => r.id)

/-- SELECT id FROM tags WHERE repository_id = rid AND tag = t. -/
def selectTagId (tags : List TagRow) (rid : Nat) (t : String) : Option Nat :=
  (tags.find? (fun x => x.repository_id == rid && x.tag == t)).map (fun x => x.id)

/-- Same SELECT with a nullable tag parameter. -/
def selectTagIdP (tags : List TagRow) (rid : Nat) (p : Option String) : Option Nat :=
  (tags.find? (fun x => x.repository_id == rid && eqParam x.tag p)).map (fun x => x.id)

/-- INSERT INTO repos (full_name) VALUES (name) ON CONFLICT DO NOTHING
RETURNING id: no row is inserted or returned when the unique key is
already present. -/
def insertRepoOnConflict (repos : List RepoRow) (full_name : String) (newId : Nat) :
    List RepoRow × Option Nat :=
  if repos.any (fun r => r.full_name == full_name) then (repos, Option.none)
  else (repos ++ [{ id := newId, full_name := full_name }], some newId)

/-- INSERT INTO tags (repository_id, tag) VALUES (rid, t) ON CONFLICT DO
NOTHING RETURNING id. -/
def insertTagOnConflict (tags : List TagRow) (rid : Nat) (t : String) (newId : Nat) :
    List TagRow × Option Nat :=
  if tags.any (fun x => x.repository_id == rid && x.tag == t) then (tags, Option.none)
  else (tags ++ [{ id := newId, repository_id := rid, tag := t }], some newId)

/-- The _get_or_create_repo resolver (lines 27-41) run sequentially:
select, insert-with-conflict-ignore, re-select, each statement seeing the
state left by the previous one. -/
def _get_or_create_repo (db : DB) (full_name : String) : DB × Option Nat :=
  match selectRepoId db.repos full_name with
  | some i => (db, some i)
  | Option.none =>
    let ins := insertRepoOnConflict db.repos full_name db.nextRepoId
    let db' := { db with repos := ins.1, nextRepoId := db.nextRepoId + 1 }
    match ins.2 with
    | some i => (db', some i)
    | Option.none => (db', selectRepoId db'.repos full_name)

/-- The _get_or_create_tag resolver (lines 44-58). -/
def _get_or_create_tag (db : DB) (rid : Nat) (t : String) : DB × Option Nat :=
  match selectTagId db.tags rid t with
  | some i => (db, some i)
  | Option.none =>
    let ins := insertTagOnConflict db.tags rid t db.nextTagId
    let db' := { db with tags := ins.1, nextTagId := db.nextTagId + 1 }
    match ins.2 with
    | some i => (db', some i)
    | Option.none => (db', selectTagId db'.tags rid t)

/-- The _get_or_create_repo control flow with each of its three SQL
statements reading its own table snapshot (t1 at the first SELECT, t2 at
the INSERT, t3 at the re-SELECT), modelling concurrent writers on other
connections between the statements. -/
def _get_or_create_repo_steps (t1 t2 t3 : List RepoRow) (full_name : String) (newId : Nat) :
    Option Nat :=
  match selectRepoId t1 full_name with
  | some i => some i
  | Option.none =>
    match (insertRepoOnConflict t2 full_name newId).2 with
    | some i => some i
    | Option.none => selectRepoId t3 full_name

/-- Identifier resolution prefix of mark_image_pulled (lines 66-71):
resolve the repo, raising on None, then the tag, raising on None.
A raise rolls the transaction back, so the caller keeps the pre-call
state on the error path. -/
def resolveRepoTag (db : DB) (repository tag : String) : DB × Option (Nat × Nat) :=
  match _get_or_create_repo db repository with
  | (db1, Option.none) => (db1, Option.none)
  | (db1, some rid) =>
    match _get_or_create_tag db1 rid tag with
    | (db2, Option.none) => (db2, Option.none)
    | (db2, some tid) => (db2, some (rid, tid))

/-- Row effect of UPDATE image_pulls SET is_pulled=true, last_pulled_at=now
WHERE tag_id=tid on one row. -/
def pullUpd (tid now : Nat) (p : PullRow) : PullRow :=
  if p.tag_id == tid then { p with is_pulled := true, last_pulled_at := now } else p

/-- Row effect of UPDATE allowed_images SET tag_id=..., raw_name=...,
raw_tag=... WHERE name=repository AND tag=tag on one row. -/
def aiUpd (repository tag : String) (tid : Nat) (a : AllowedImageRow) : AllowedImageRow :=
  if a.name == repository && a.tag == tag then
    { a with tag_id := some tid, raw_name := some repository, raw_tag := some tag }
  else a

/-- The UPDATE plus rowcount-guarded INSERT of mark_image_pulled (lines
73-80) on the image_pulls table. -/
def upsertPulls (P : List PullRow) (tid now : Nat) : List PullRow :=
  let rowcount := (P.filter (fun p => p.tag_id == tid)).length
  let updated := P.map (pullUpd tid now)
  if rowcount == 0 then updated ++ [{ tag_id := tid, is_pulled := true, last_pulled_at := now }]
  else updated

/-- State-update suffix of mark_image_pulled (lines 73-85): upsert the
image_pulls row for the tag and refresh the matching allowed_images rows. -/
def applyPull (db : DB) (repository tag : String) (tid : Nat) (now : Nat) : DB :=
  { db with image_pulls := upsertPulls db.image_pulls tid now,
            allowed_images := db.allowed_images.map (aiUpd repository tag tid) }

/-- mark_image_pulled (lines 61-87): one transaction; a RuntimeError from
identifier resolution aborts it (rollback), otherwise the pull state is
upserted and the allow-list rows refreshed, then committed. -/
def mark_image_pulled (db : DB) (repository tag : String) (now : Nat) : Except Unit DB :=
  match resolveRepoTag db repository tag with
  | (_, Option.none) => .error ()
  | (db2, some (_, tid)) => .ok (applyPull db2 repository tag tid now)

/-- Python truthiness of a nullable SQL string parameter, as tested by
the if tag: branch of mark_image_deleted. -/
def optTruthy : Option String → Bool
  | Option.none => false
  | some s => !(s == "")

/-- mark_image_deleted (lines 90-123): mark matching allowed_images rows
deleted, then, when the repository row resolves, flip is_pulled off for
the one tag (truthy tag given) or for every tag of the repository. -/
def mark_image_deleted (db : DB) (repository tag : Option String) (now : Nat) : DB :=
  let ai :=
    if optTruthy tag then
      db.allowed_images.map
        (fun a => if eqParam a.name repository && eqParam a.tag tag then
            { a with deleted_at := some now, harbor_deleted := true, harbor_deleted_at := some now }
          else a)
    else
      db.allowed_images.map
        (fun a => if eqParam a.name repository then
            { a with deleted_at := some now, harbor_deleted := true, harbor_deleted_at := some now }
          else a)
  let db1 := { db with allowed_images := ai }
  match selectRepoIdP db1.repos repository with
  | Option.none => db1
  | some rid =>
    if optTruthy tag then
      match selectTagIdP db1.tags rid tag with
      | Option.none => db1
      | some tid =>
        let pulls := db1.image_pulls.map
          (fun p => if p.tag_id == tid then { p with is_pulled := false } else p)
        { db1 with image_pulls := pulls }
    else
      let tagIds := (db1.tags.filter (fun x => x.repository_id == rid)).map (fun x => x.id)
      let pulls := db1.image_pulls.map
        (fun p => if tagIds.contains p.tag_id then { p with is_pulled := false } else p)
      { db1 with image_pulls := pulls }

/- =====================  Ingress handler  ===================== -/

/-- HTTP responses produced by the webhook endpoint. -/
inductive Resp where
  | unauthorized
  | invalidJson
  | ignored
  | okUpdated (n : Nat)
  | okDeleted (n : Nat)
  | dbError
  | uncaught
deriving DecidableEq

/-- Status code of each response; uncaught is the framework 500 for an
exception escaping the handler. -/
def Resp.code : Resp → Nat
  | .unauthorized => 401
  | .invalidJson => 400
  | .ignored => 200
  | .okUpdated _ => 200
  | .okDeleted _ => 200
  | .dbError => 500
  | .uncaught => 500

def listHasSub (pat : List Char) : List Char → Bool
  | [] => pat.isEmpty
  | c :: rest => pat.isPrefixOf (c :: rest) || listHasSub pat rest

/-- Python substring containment pat in s. -/
def strContains (s pat : String) : Bool := listHasSub pat.data s.data

/-- Python v.lower(): AttributeError on non-strings.  The event-type
strings are ASCII, so per-character case mapping is the whole story. -/
def pyLower : PyVal → Except PyErr String
  | .str s => .ok (String.mk (s.data.map Char.toLower))
  | _ => .error .attributeError

/-- Python v.upper(): AttributeError on non-strings. -/
def pyUpper : PyVal → Except PyErr String
  | .str s => .ok (String.mk (s.data.map Char.toUpper))
  | _ => .error .attributeError

/-- Event classification (lines 195-200): delete when the lowercased type
field contains the word delete or the operation field upper-cases to
DELETE; push otherwise. -/
def classifyDelete (payload : PyVal) : Except PyErr Bool := do
  let tv ← orTruthyM (orTruthyM (orTruthyM (payload.get? "type") (payload.get? "event_type"))
      (payload.get? "event_type_lite")) (pure (.str ""))
  let evtype ← pyLower tv
  let d1 := strContains evtype "delete" || (strContains evtype "artifact" && strContains evtype "delete")
  let op ← payload.get? "operation"
  if op.truthy then
    let u ← pyUpper op
    return d1 || u == "DELETE"
  return d1

/-- Binding a raw payload value to one of the NOT NULL-free text columns
in a statement that actually executes: Python None maps to SQL NULL and
str maps to text; a container or numeric value for such a column makes
the execute call raise (unadaptable, or a server-side type mismatch),
which the per-pair handler catches.  Only apply this to a parameter the
taken branch really binds - mark_image_deleted tests the tag for
truthiness before any statement mentions it. -/
def adaptParam : PyVal → Except Unit (Option String)
  | .none => .ok Option.none
  | .str s => .ok (some s)
  | _ => .error ()

/-- One iteration body of the delete loop (lines 207-212).  The
repository parameter is bound in every execute path of
mark_image_deleted, so it must adapt; the tag is tested with Python
truthiness first (line 94), so a falsy tag of any type never reaches a
statement and the call degrades to the repository-wide branch, while a
truthy non-string tag raises at the execute that binds it. -/
def deleteApply (now : Nat) (p : PyVal × PyVal) (db : DB) : Except Unit DB := do
  let r ← adaptParam p.1
  match p.2 with
  | .str s => Except.ok (mark_image_deleted db r (some s) now)
  | t =>
    if t.truthy then Except.error ()
    else Except.ok (mark_image_deleted db r Option.none now)

/-- One iteration body of the push loop (lines 220-225).  The repos and
tags name columns are NOT NULL, so a None (or container) parameter makes
the statement raise, which the per-pair handler catches. -/
def pushApply (now : Nat) (p : PyVal × PyVal) (db : DB) : Except Unit DB :=
  match p with
  | (.str r, .str t) => mark_image_pulled db r t now
  | _ => .error ()

/-- The per-pair try/except loop shared by the delete path (lines
207-212) and the push path (lines 220-225): each pair is applied in its
own transaction; the first exception stops the loop, keeping the
already-committed state, and flags the request as failed. -/
def applyLoop (apply : (PyVal × PyVal) → DB → Except Unit DB) :
    List (PyVal × PyVal) → DB → DB × Bool
  | [], db => (db, true)
  | p :: rest, db =>
    match apply p db with
    | .ok db' => applyLoop apply rest db'
    | .error _ => (db, false)

/-- Sequential application of every pair, used to state which prefix of
the request had committed when a later pair fails. -/
def applyAll (apply : (PyVal × PyVal) → DB → Except Unit DB) :
    List (PyVal × PyVal) → DB → Except Unit DB
  | [], db => .ok db
  | p :: rest, db =>
    match apply p db with
    | .ok db' => applyAll apply rest db'
    | .error e => .error e

/-- Body of the webhook route after auth and JSON decoding (lines
195-227): classify, normalize, drive the per-pair loop, and map the
outcome to a response.  A Python exception escaping this region
propagates (Except error) to the framework. -/
def webhookCore (payload : PyVal) (db : DB) (now : Nat) : Except PyErr (DB × Resp) := do
  let isDel ← classifyDelete payload
  if isDel then
    let del_pairs ← parse_harbor_delete payload
    if del_pairs.isEmpty then return (db, .ignored)
    let r := applyLoop (deleteApply now) del_pairs db
    return (r.1, if r.2 then .okDeleted del_pairs.length else .dbError)
  else
    let pairs ← parse_harbor_payload payload
    if pairs.isEmpty then return (db, .ignored)
    let r := applyLoop (pushApply now) pairs db
    return (r.1, if r.2 then .okUpdated pairs.length else .dbError)

/-- The webhook route (lines 183-227): the auth gate runs first, then the
body is decoded (Option.none stands for undecodable JSON), then the core.
The secret and token carry Python truthiness: an empty configured secret
disables the gate, an empty supplied token is treated as missing. -/
def handleWebhook (secret token : Option String) (body : Option PyVal) (db : DB) (now : Nat) :
    DB × Resp :=
  if optTruthy secret && !(optTruthy token && token == secret) then (db, .unauthorized)
  else
    match body with
    | Option.none => (db, .invalidJson)
    | some payload =>
      match webhookCore payload db now with
      | .ok r => r
      | .error _ => (db, .uncaught)

/-- Observed pull state of a (repository, tag) pair: resolve the names the
way the store queries do and read the first matching image_pulls row. -/
def pullStateOf (db : DB) (repository tag : String) : Option (Bool × Nat) :=
  match selectRepoId db.repos repository with
  | Option.none => Option.none
  | some rid =>
    match selectTagId db.tags rid tag with
    | Option.none => Option.none
    | some tid =>
      (db.image_pulls.find? (fun p => p.tag_id == tid)).map (fun p => (p.is_pulled, p.last_pulled_at))

/-- An empty store. -/
def db0 : DB :=
  { repos := [], tags := [], image_pulls := [], allowed_images := [],
    nextRepoId := 1, nextTagId := 1 }

/-- A store holding one allow-list row for app:v1 and nothing else. -/
def dbC1 : DB :=
  { repos := [], tags := [], image_pulls := [],
    allowed_images := [{ name := "app", tag := "v1", tag_id := Option.none,
                         raw_name := Option.none, raw_tag := Option.none,
                         deleted_at := Option.none, harbor_deleted := false,
                         harbor_deleted_at := Option.none }],
    nextRepoId := 1, nextTagId := 1 }

/-- A store with repository app carrying tags v1 and v2, both pulled, and
one allow-list row for app:v1. -/
def dbC5 : DB :=
  { repos := [{ id := 1, full_name := "app" }],
    tags := [{ id := 11, repository_id := 1, tag := "v1" },
             { id := 12, repository_id := 1, tag := "v2" }],
    image_pulls := [{ tag_id := 11, is_pulled := true, last_pulled_at := 3 },
                    { tag_id := 12, is_pulled := true, last_pulled_at := 4 }],
    allowed_images := [{ name := "app", tag := "v1", tag_id := some 11,
                         raw_name := some "app", raw_tag := some "v1",
                         deleted_at := Option.none, harbor_deleted := false,
                         harbor_deleted_at := Option.none }],
    nextRepoId := 2, nextTagId := 13 }

/-- Push payload with the nested resource shape from the spec's shape
coverage property. -/
def payloadResource : PyVal :=
  .dict [("resource", .dict [("repository", .str "app"),
                             ("tags", .list [.dict [("name", .str "v1")], .str "v2"])])]

/-- Push payload with the flat repository.name plus push_data.tag shape. -/
def payloadPushData : PyVal :=
  .dict [("repository", .dict [("name", .str "app")]), ("push_data", .dict [("tag", .str "v3")])]

/-- Delete payload carrying only a nested resource object. -/
def payloadResourceDelete : PyVal :=
  .dict [("resource", .dict [("repository", .str "app"), ("tag", .str "v1")])]

/-- Delete payload whose artifact carries a tags list but no repository
name, with no outer repository.name either. -/
def payloadDeleteNoRepo : PyVal :=
  .dict [("type", .str "DELETE_ARTIFACT"), ("artifact", .dict [("tags", .list [.str "v1"])])]

/-- Delete payload whose artifact tags list holds one truthy element that
cannot be bound to the text tag column (a non-empty list), followed by a
well-formed tag. -/
def payloadMixedDelete : PyVal :=
  .dict [("type", .str "delete"),
         ("artifact", .dict [("repository", .str "app"),
                             ("tags", .list [.list [.str "x"], .str "v1"])])]

/- ==========  Probed-field observations and well-typedness  ========== -/

/-- Python a or b over already-computed values. -/
def orTruthy (a b : PyVal) : PyVal := if a.truthy then a else b

/-- The event_data value the push normalizer computes for a dict payload. -/
def eventDataOf (m : List (String × PyVal)) : PyVal :=
  orTruthy (orTruthy ((PyVal.dict m).dget "event_data") ((PyVal.dict m).dget "artifact")) (PyVal.dict m)

/-- The resource value the push normalizer computes for a dict payload. -/
def resourceOf (m : List (String × PyVal)) : PyVal :=
  if (eventDataOf m).isDict then (eventDataOf m).dget "resource" else .none

/-- The push_data value both normalizers compute for a dict payload. -/
def pushDataOf (m : List (String × PyVal)) : PyVal :=
  orTruthy (orTruthy ((PyVal.dict m).dget "push_data") ((PyVal.dict m).dget "push")) (.dict [])

/-- The outer repository name payload.get('repository', \x7b\x7d).get('name'). -/
def outerNameOf (m : List (String × PyVal)) : PyVal :=
  ((lookupKey m "repository").getD (.dict [])).dget "name"

/-- Values Python can iterate. -/
def iterableOk : PyVal → Bool
  | .list _ => true
  | .str _ => true
  | .dict _ => true
  | _ => false

/-- The repository field is absent or bound to a dict; anything else makes
the .get('name') chained call raise. -/
def repoFieldOk (m : List (String × PyVal)) : Bool :=
  match lookupKey m "repository" with
  | Option.none => true
  | some (.dict _) => true
  | some _ => false

/-- When the artifact is a dict binding a tags field, that field holds an
iterable value; anything else makes the tag comprehension raise. -/
def artifactTagsOk (m : List (String × PyVal)) : Bool :=
  match lookupKey m "artifact" with
  | some (.dict am) =>
    (match lookupKey am "tags" with
     | some tv => iterableOk tv
     | Option.none => true)
  | _ => true

/-- Every field the normalizers probe is absent or well typed: the
computed resource is falsy or a dict, the repository field absent or a
dict, the first truthy of push_data/push a dict, and a bound artifact
tags field iterable. -/
def wellTypedPayload (m : List (String × PyVal)) : Bool :=
  (!(resourceOf m).truthy || (resourceOf m).isDict)
  && repoFieldOk m
  && (pushDataOf m).isDict
  && artifactTagsOk m

def probedFieldsAbsent (m : List (String × PyVal)) : Bool :=
  (lookupKey m "event_data").isNone && (lookupKey m "artifact").isNone
  && (lookupKey m "resource").isNone && (lookupKey m "repository").isNone
  && (lookupKey m "push_data").isNone && (lookupKey m "push").isNone


/- =====================  Helper lemmas  ===================== -/

theorem exceptPure {ε α : Type} (a : α) : (pure a : Except ε α) = Except.ok a := rfl

theorem exceptBindOk {ε α β : Type} (a : α) (f : α → Except ε β) :
    (Except.ok a : Except ε α) >>= f = f a := rfl

theorem map_eq_self_of_mem {α : Type} (l : List α) (f : α → α) (h : ∀ a ∈ l, f a = a) :
    l.map f = l := by
  induction l with
  | nil => rfl
  | cons a t ih =>
    simp only [List.map_cons, List.cons.injEq]
    exact ⟨h a (by simp), ih (fun x hx => h x (by simp [hx]))⟩

theorem find?_append_of_none {α : Type} (p : α → Bool) (l : List α)
    (h : l.find? p = Option.none) (x : α) :
    (l ++ [x]).find? p = if p x then some x else Option.none := by
  induction l with
  | nil =>
    cases hpx : p x with
    | true => simp [List.find?, hpx]
    | false => simp [List.find?, hpx]
  | cons a t ih =>
    cases hpa : p a with
    | true => rw [List.find?_cons_of_pos _ hpa] at h; exact absurd h (by simp)
    | false =>
      have hpa' : ¬ p a = true := by simp [hpa]
      rw [List.find?_cons_of_neg _ hpa'] at h
      rw [List.cons_append, List.find?_cons_of_neg _ hpa']
      exact ih h

/- =====================  Claim theorems  ===================== -/

/-- C6: the push normalizer maps the nested-resource payload to
app:v1, app:v2 exactly, the flat repository plus push_data payload to
app:v3 exactly, and the empty payload to the empty sequence, on which the
endpoint responds 200 with status ignored. -/
theorem C6_shape_coverage :
    parse_harbor_payload payloadResource = .ok [(.str "app", .str "v1"), (.str "app", .str "v2")]
    ∧ parse_harbor_payload payloadPushData = .ok [(.str "app", .str "v3")]
    ∧ parse_harbor_payload (.dict []) = .ok []
    ∧ (∀ (db : DB) (now : Nat), webhookCore (.dict []) db now = .ok (db, Resp.ignored))
    ∧ Resp.code .ignored = 200 :=
  ⟨rfl, rfl, rfl, fun _ _ => rfl, rfl⟩

/-- C2 counterexample: a delete payload carrying the nested resource shape
with a repository and a tag yields no pairs from parse_harbor_delete, even
though parse_harbor_payload extracts app:v1 from the very same payload, so
the delete normalizer does not tolerate the same shapes as the push one. -/
theorem C2_counterexample :
    parse_harbor_delete payloadResourceDelete = .ok []
    ∧ parse_harbor_payload payloadResourceDelete = .ok [(.str "app", .str "v1")] :=
  ⟨rfl, rfl⟩

/-- C2 amended: parse_harbor_delete probes only the artifact shape and
then the flat repository.name shape, first match winning; a payload
carrying only a nested resource object yields the empty sequence, whatever
the resource holds, while the artifact shape (tags list with bare-string
or name-object elements, or a tagless repository-level delete) and the
flat shape yield their pairs. -/
theorem C2_delete_shapes :
    (∀ v : PyVal, parse_harbor_delete (.dict [("resource", v)]) = .ok [])
    ∧ parse_harbor_delete (.dict [("artifact", .dict [("repository", .str "app"),
        ("tags", .list [.dict [("name", .str "v1")], .str "v2"])])])
        = .ok [(.str "app", .str "v1"), (.str "app", .str "v2")]
    ∧ parse_harbor_delete (.dict [("artifact", .dict [("repository", .str "app")])])
        = .ok [(.str "app", .none)]
    ∧ parse_harbor_delete (.dict [("repository", .dict [("name", .str "app")]),
        ("push_data", .dict [("tag", .str "v1")])])
        = .ok [(.str "app", .str "v1")] :=
  ⟨fun _ => rfl, rfl, rfl, rfl⟩

/-- C3 counterexample: a payload binding repository to a string makes both
normalizers raise AttributeError instead of returning an empty sequence,
and binding an artifact tags field to a number makes the delete normalizer
raise TypeError. -/
theorem C3_counterexample :
    parse_harbor_payload (.dict [("repository", .str "x")]) = .error .attributeError
    ∧ parse_harbor_delete (.dict [("repository", .str "x")]) = .error .attributeError
    ∧ parse_harbor_delete (.dict [("artifact", .dict [("repository", .str "a"), ("tags", .int 5)])])
        = .error .typeError :=
  ⟨rfl, rfl, rfl⟩

/-- On a payload dict that leaves every probed field (event_data,
artifact, resource, repository, push_data, push) unbound, both normalizers
return the empty sequence. -/
theorem parse_empty_when_fields_absent (m : List (String × PyVal))
    (h1 : lookupKey m "event_data" = Option.none)
    (h2 : lookupKey m "artifact" = Option.none)
    (h3 : lookupKey m "resource" = Option.none)
    (h4 : lookupKey m "repository" = Option.none)
    (h5 : lookupKey m "push_data" = Option.none)
    (h6 : lookupKey m "push" = Option.none) :
    parse_harbor_payload (.dict m) = .ok [] ∧ parse_harbor_delete (.dict m) = .ok [] := by
  constructor <;>
    simp [parse_harbor_payload, parse_harbor_delete, PyVal.get?, PyVal.getDefault?,
          getOuterRepoName, orTruthyM, h1, h2, h3, h4, h5, h6, PyVal.truthy, PyVal.isDict,
          PyVal.dget, lookupKey, Option.getD, exceptPure, exceptBindOk]

theorem get?_dict (m : List (String × PyVal)) (k : String) :
    (PyVal.dict m).get? k = .ok ((PyVal.dict m).dget k) := rfl

theorem orTruthyM_ok (a b : PyVal) : orTruthyM (.ok a) (.ok b) = .ok (orTruthy a b) := by
  unfold orTruthyM orTruthy
  rw [exceptBindOk]
  cases h : a.truthy <;> simp [h, exceptPure]

theorem getOuterRepoName_ok (m : List (String × PyVal)) (h : repoFieldOk m = true) :
    getOuterRepoName (.dict m) = .ok (outerNameOf m) := by
  unfold getOuterRepoName outerNameOf
  unfold repoFieldOk at h
  cases hl : lookupKey m "repository" with
  | none => simp [hl, PyVal.getDefault?, PyVal.get?, PyVal.dget, exceptBindOk]
  | some v =>
    cases v with
    | dict mm => simp [hl, PyVal.getDefault?, PyVal.get?, PyVal.dget, exceptBindOk]
    | none => rw [hl] at h; cases h
    | str s => rw [hl] at h; cases h
    | int n => rw [hl] at h; cases h
    | list xs => rw [hl] at h; cases h

theorem exists_ok_bind {ε α β : Type} (x : Except ε α) (f : α → Except ε β)
    (hx : ∃ a, x = .ok a) (hf : ∀ a, x = Except.ok a → ∃ b, f a = .ok b) :
    ∃ b, (x >>= f) = .ok b := by
  obtain ⟨a, ha⟩ := hx
  obtain ⟨b, hb⟩ := hf a ha
  exact ⟨b, by rw [ha, exceptBindOk, hb]⟩

theorem delete_tail_total (m : List (String × PyVal))
    (hrepo : repoFieldOk m = true) (hpush : (pushDataOf m).isDict = true) :
    ∃ l, (do
      let repo ← getOuterRepoName (PyVal.dict m)
      if repo.truthy then
        let push_data ← orTruthyM (orTruthyM ((PyVal.dict m).get? "push_data") ((PyVal.dict m).get? "push")) (pure (PyVal.dict []))
        let tag ← push_data.get? "tag"
        return [(repo, tag)]
      return ([] : List (PyVal × PyVal))) = Except.ok l := by
  apply exists_ok_bind
  · exact ⟨_, getOuterRepoName_ok m hrepo⟩
  · intro repo hrv
    by_cases ht : repo.truthy = true
    · simp only [ht, if_true]
      apply exists_ok_bind
      · exact ⟨pushDataOf m, by
          rw [get?_dict, get?_dict, exceptPure, orTruthyM_ok, orTruthyM_ok]; rfl⟩
      · intro pd hpd
        rw [get?_dict, get?_dict, exceptPure, orTruthyM_ok, orTruthyM_ok] at hpd
        injection hpd with hpd
        apply exists_ok_bind
        · cases hd : pushDataOf m with
          | dict mm =>
            refine ⟨(PyVal.dict mm).dget "tag", ?_⟩
            rw [← hpd]
            unfold pushDataOf at hd
            rw [hd]
            exact get?_dict mm "tag"
          | none => rw [hd] at hpush; cases hpush
          | str s => rw [hd] at hpush; cases hpush
          | int n => rw [hd] at hpush; cases hpush
          | list xs => rw [hd] at hpush; cases hpush
        · intro tag htag
          exact ⟨_, rfl⟩
    · simp only [ht, if_false]
      exact ⟨_, rfl⟩

theorem parse_harbor_delete_total (m : List (String × PyVal))
    (hrepo : repoFieldOk m = true) (hpush : (pushDataOf m).isDict = true)
    (hart : artifactTagsOk m = true) :
    ∃ l, parse_harbor_delete (.dict m) = .ok l := by
  unfold parse_harbor_delete
  apply exists_ok_bind
  · exact ⟨(PyVal.dict m).dget "artifact", get?_dict m "artifact"⟩
  · intro art hartv
    rw [get?_dict] at hartv
    injection hartv with hartv
    by_cases hd : art.isDict = true
    · obtain ⟨am, ham⟩ : ∃ am, art = PyVal.dict am := by
        cases art with
        | dict am => exact ⟨am, rfl⟩
        | none => cases hd
        | str s => cases hd
        | int n => cases hd
        | list xs => cases hd
      subst ham
      rw [if_pos hd]
      apply exists_ok_bind
      · exact ⟨orTruthy ((PyVal.dict am).dget "repository") (outerNameOf m), by
          rw [exceptPure, getOuterRepoName_ok m hrepo, orTruthyM_ok]⟩
      · intro repo hrepov
        by_cases hdt : ((PyVal.dict am).dget "tags").truthy = true
        · rw [if_pos hdt]
          have hiter : ∃ ts, pyIterate ((PyVal.dict am).dget "tags") = .ok ts := by
            unfold artifactTagsOk at hart
            cases hl : lookupKey m "artifact" with
            | none =>
              simp only [PyVal.dget, hl] at hartv
              simp at hartv
            | some v =>
              simp only [PyVal.dget, hl, Option.getD] at hartv
              subst hartv
              rw [hl] at hart
              dsimp only at hart
              simp only [PyVal.dget] at hdt ⊢
              cases h2 : lookupKey am "tags" with
              | none => rw [h2] at hdt; cases hdt
              | some tv =>
                rw [h2] at hart hdt
                dsimp only at hart
                simp only [Option.getD] at hdt ⊢
                cases tv with
                | list xs => exact ⟨xs, rfl⟩
                | str s => exact ⟨_, rfl⟩
                | dict mm => exact ⟨_, rfl⟩
                | none => cases hart
                | int n => cases hart
          obtain ⟨ts, hts⟩ := hiter
          -- rewrite the truthiness guard on tags and the iterate bind
          rw [if_pos]
          · apply exists_ok_bind
            · exact ⟨ts, hts⟩
            · intro ts2 hts2
              exact ⟨_, rfl⟩
          · exact hdt
        · rw [if_neg hdt]
          rw [if_neg (by simp [PyVal.truthy] : ¬ (PyVal.list []).truthy = true)]
          by_cases hrt : repo.truthy = true
          · rw [if_pos hrt]
            exact ⟨_, rfl⟩
          · rw [if_neg hrt]
            exact delete_tail_total m hrepo hpush
    · rw [if_neg hd]
      exact delete_tail_total m hrepo hpush

theorem hasKey_false_of_lookup_none (am : List (String × PyVal)) (k : String)
    (h : lookupKey am k = Option.none) : hasKey (.dict am) k = false := by
  induction am with
  | nil => rfl
  | cons kv rest ih =>
    obtain ⟨k1, v1⟩ := kv
    unfold lookupKey at h
    cases hk : (k1 == k) with
    | true => rw [if_pos hk] at h; cases h
    | false =>
      rw [if_neg (by simp [hk])] at h
      have ih2 := ih h
      unfold hasKey at ih2 ⊢
      simp only [List.any_cons, Bool.or_eq_false_iff]
      exact ⟨hk, ih2⟩

theorem artifact_iterate_ok (m am : List (String × PyVal))
    (hart : artifactTagsOk m = true)
    (hartv : (PyVal.dict m).dget "artifact" = PyVal.dict am)
    (tv : PyVal) (h2 : lookupKey am "tags" = some tv) :
    ∃ ts, pyIterate tv = .ok ts := by
  unfold artifactTagsOk at hart
  cases hl : lookupKey m "artifact" with
  | none =>
    simp only [PyVal.dget, hl] at hartv
    simp at hartv
  | some v =>
    simp only [PyVal.dget, hl, Option.getD] at hartv
    subst hartv
    rw [hl] at hart
    dsimp only at hart
    rw [h2] at hart
    dsimp only at hart
    cases tv with
    | list xs => exact ⟨xs, rfl⟩
    | str s => exact ⟨_, rfl⟩
    | dict mm => exact ⟨_, rfl⟩
    | none => cases hart
    | int n => cases hart

theorem payload_tail_total (m : List (String × PyVal))
    (hrepo : repoFieldOk m = true) (hpush : (pushDataOf m).isDict = true)
    (hart : artifactTagsOk m = true) :
    ∃ l, (do
      let repo ← getOuterRepoName (PyVal.dict m)
      let push_data ← orTruthyM (orTruthyM ((PyVal.dict m).get? "push_data") ((PyVal.dict m).get? "push")) (pure (PyVal.dict []))
      let tag ← push_data.get? "tag"
      if repo.truthy && tag.truthy then
        return [(repo, tag)]
      let art ← (PyVal.dict m).get? "artifact"
      if art.isDict then
        let repo2 ← orTruthyM (pure (art.dget "repository")) (getOuterRepoName (PyVal.dict m))
        if hasKey art "tags" then
          let ts ← pyIterate (art.dget "tags")
          return ts.map (fun t => (repo2, tagNameOf t))
      return ([] : List (PyVal × PyVal))) = Except.ok l := by
  apply exists_ok_bind
  · exact ⟨outerNameOf m, getOuterRepoName_ok m hrepo⟩
  · intro repo hrv
    apply exists_ok_bind
    · exact ⟨pushDataOf m, by
        rw [get?_dict, get?_dict, exceptPure, orTruthyM_ok, orTruthyM_ok]; rfl⟩
    · intro pd hpd
      rw [get?_dict, get?_dict, exceptPure, orTruthyM_ok, orTruthyM_ok] at hpd
      injection hpd with hpd
      apply exists_ok_bind
      · cases hd : pushDataOf m with
        | dict mm =>
          refine ⟨(PyVal.dict mm).dget "tag", ?_⟩
          rw [← hpd]
          unfold pushDataOf at hd
          rw [hd]
          exact get?_dict mm "tag"
        | none => rw [hd] at hpush; cases hpush
        | str s => rw [hd] at hpush; cases hpush
        | int n => rw [hd] at hpush; cases hpush
        | list xs => rw [hd] at hpush; cases hpush
      · intro tag htag
        split
        · exact ⟨_, rfl⟩
        · dsimp only [exceptPure, exceptBindOk]
          apply exists_ok_bind
          · exact ⟨(PyVal.dict m).dget "artifact", get?_dict m "artifact"⟩
          · intro art hartv
            rw [get?_dict] at hartv
            injection hartv with hartv
            by_cases hd : art.isDict = true
            · obtain ⟨am, ham⟩ : ∃ am, art = PyVal.dict am := by
                cases art with
                | dict am => exact ⟨am, rfl⟩
                | none => cases hd
                | str s => cases hd
                | int n => cases hd
                | list xs => cases hd
              subst ham
              rw [if_pos hd]
              apply exists_ok_bind
              · exact ⟨orTruthy ((PyVal.dict am).dget "repository") (outerNameOf m), by
                  rw [getOuterRepoName_ok m hrepo, orTruthyM_ok]⟩
              · intro repo2 hr2
                by_cases hk : hasKey (PyVal.dict am) "tags" = true
                · rw [if_pos hk]
                  have h2 : ∃ tv, lookupKey am "tags" = some tv := by
                    cases h3 : lookupKey am "tags" with
                    | none => rw [hasKey_false_of_lookup_none am "tags" h3] at hk; cases hk
                    | some tv => exact ⟨tv, rfl⟩
                  obtain ⟨tv, htv⟩ := h2
                  obtain ⟨ts, hts⟩ := artifact_iterate_ok m am hart hartv tv htv
                  apply exists_ok_bind
                  · refine ⟨ts, ?_⟩
                    have hdg : (PyVal.dict am).dget "tags" = tv := by
                      simp [PyVal.dget, htv]
                    rw [hdg]
                    exact hts
                  · intro ts2 hts2
                    exact ⟨_, rfl⟩
                · rw [if_neg hk]
                  exact ⟨_, rfl⟩
            · rw [if_neg hd]
              exact ⟨_, rfl⟩

theorem payload_resource_body_total (m : List (String × PyVal)) (resource : PyVal)
    (hresOk : resource.truthy = false ∨ resource.isDict = true)
    (hrepo : repoFieldOk m = true) (hpush : (pushDataOf m).isDict = true)
    (hart : artifactTagsOk m = true) :
    ∃ l, (do
      if resource.truthy then
        let repo ← orTruthyM (orTruthyM (resource.get? "repository") (resource.get? "repo")) (getOuterRepoName (PyVal.dict m))
        let tags :=
          if hasKey resource "tag" && (resource.dget "tag").truthy then
            [resource.dget "tag"]
          else if hasKey resource "tags" && (resource.dget "tags").isList then
            (match resource.dget "tags" with | .list xs => xs | _ => []).map tagNameOf
          else []
        if repo.truthy && !tags.isEmpty then
          return tags.map (fun t => (repo, t))
      let repo ← getOuterRepoName (PyVal.dict m)
      let push_data ← orTruthyM (orTruthyM ((PyVal.dict m).get? "push_data") ((PyVal.dict m).get? "push")) (pure (PyVal.dict []))
      let tag ← push_data.get? "tag"
      if repo.truthy && tag.truthy then
        return [(repo, tag)]
      let art ← (PyVal.dict m).get? "artifact"
      if art.isDict then
        let repo2 ← orTruthyM (pure (art.dget "repository")) (getOuterRepoName (PyVal.dict m))
        if hasKey art "tags" then
          let ts ← pyIterate (art.dget "tags")
          return ts.map (fun t => (repo2, tagNameOf t))
      return ([] : List (PyVal × PyVal))) = Except.ok l := by
  by_cases hrt : resource.truthy = true
  · have hrd : resource.isDict = true := by
      rcases hresOk with h | h
      · rw [hrt] at h; cases h
      · exact h
    obtain ⟨rm, hrm⟩ : ∃ rm, resource = PyVal.dict rm := by
      cases resource with
      | dict rm => exact ⟨rm, rfl⟩
      | none => cases hrd
      | str s => cases hrd
      | int n => cases hrd
      | list xs => cases hrd
    subst hrm
    rw [if_pos hrt]
    apply exists_ok_bind
    · exact ⟨orTruthy (orTruthy ((PyVal.dict rm).dget "repository") ((PyVal.dict rm).dget "repo")) (outerNameOf m), by
        rw [get?_dict, get?_dict, getOuterRepoName_ok m hrepo, orTruthyM_ok, orTruthyM_ok]⟩
    · intro repo1 hr1
      dsimp only
      by_cases hc : (repo1.truthy && !(
          if hasKey (PyVal.dict rm) "tag" && ((PyVal.dict rm).dget "tag").truthy then
            [(PyVal.dict rm).dget "tag"]
          else if hasKey (PyVal.dict rm) "tags" && ((PyVal.dict rm).dget "tags").isList then
            (match (PyVal.dict rm).dget "tags" with | .list xs => xs | _ => []).map tagNameOf
          else []).isEmpty) = true
      · rw [if_pos hc]
        exact ⟨_, rfl⟩
      · rw [if_neg hc]
        dsimp only [exceptPure, exceptBindOk]
        exact payload_tail_total m hrepo hpush hart
  · rw [if_neg hrt]
    dsimp only [exceptPure, exceptBindOk]
    exact payload_tail_total m hrepo hpush hart

theorem parse_harbor_payload_total (m : List (String × PyVal))
    (hres : (!(resourceOf m).truthy || (resourceOf m).isDict) = true)
    (hrepo : repoFieldOk m = true) (hpush : (pushDataOf m).isDict = true)
    (hart : artifactTagsOk m = true) :
    ∃ l, parse_harbor_payload (.dict m) = .ok l := by
  unfold parse_harbor_payload
  apply exists_ok_bind
  · exact ⟨eventDataOf m, by
      rw [get?_dict, get?_dict, exceptPure, orTruthyM_ok, orTruthyM_ok]; rfl⟩
  · intro ed hed
    rw [get?_dict, get?_dict, exceptPure, orTruthyM_ok, orTruthyM_ok] at hed
    injection hed with hed
    have hedm : eventDataOf m = ed := hed
    by_cases hedd : ed.isDict = true
    · obtain ⟨em, hem⟩ : ∃ em, ed = PyVal.dict em := by
        cases ed with
        | dict em => exact ⟨em, rfl⟩
        | none => cases hedd
        | str s => cases hedd
        | int n => cases hedd
        | list xs => cases hedd
      subst hem
      rw [if_pos hedd]
      apply exists_ok_bind
      · exact ⟨(PyVal.dict em).dget "resource", get?_dict em "resource"⟩
      · intro resource hresv
        rw [get?_dict] at hresv
        injection hresv with hresv
        have h1 : resourceOf m = resource := by
          unfold resourceOf
          rw [hedm]
          rw [if_pos (show (PyVal.dict em).isDict = true from rfl)]
          exact hresv
        have hOk : resource.truthy = false ∨ resource.isDict = true := by
          rw [← h1]
          cases hb : (resourceOf m).truthy with
          | false => exact Or.inl rfl
          | true =>
            right
            rw [hb] at hres
            simpa using hres
        exact payload_resource_body_total m resource hOk hrepo hpush hart
    · rw [if_neg hedd]
      dsimp only [exceptPure, exceptBindOk]
      exact payload_resource_body_total m PyVal.none (Or.inl rfl) hrepo hpush hart

/-- C3 amended: the normalizers are pure transformations that never raise
on a payload whose probed fields are absent or well typed - the computed
resource falsy or a dict, the repository field absent or a dict, the first
truthy of push_data/push a dict, a bound artifact tags field iterable -
always returning a pair sequence, and when no probed field is present at
all that sequence is empty; an ill-typed probed field raises instead, per
the counterexample. -/
theorem C3_normalizers_no_raise (m : List (String × PyVal))
    (hw : wellTypedPayload m = true) :
    (∃ l, parse_harbor_payload (.dict m) = .ok l)
    ∧ (∃ l, parse_harbor_delete (.dict m) = .ok l)
    ∧ (probedFieldsAbsent m = true →
        parse_harbor_payload (.dict m) = .ok [] ∧ parse_harbor_delete (.dict m) = .ok []) := by
  unfold wellTypedPayload at hw
  simp only [Bool.and_eq_true] at hw
  obtain ⟨⟨⟨h1, h2⟩, h3⟩, h4⟩ := hw
  refine ⟨parse_harbor_payload_total m h1 h2 h3 h4, parse_harbor_delete_total m h2 h3 h4, ?_⟩
  intro habs
  unfold probedFieldsAbsent at habs
  simp only [Bool.and_eq_true, Option.isNone_iff_eq_none] at habs
  obtain ⟨⟨⟨⟨⟨a1, a2⟩, a3⟩, a4⟩, a5⟩, a6⟩ := habs
  exact parse_empty_when_fields_absent m a1 a2 a3 a4 a5 a6

/-- C3 witness: a payload with present but well-typed repository and push
fields parses without raising. -/
theorem C3_normalizers_no_raise_witness :
    ∃ l, parse_harbor_payload (.dict [("repository", .dict [("name", PyVal.none)]), ("push", .dict [])]) = .ok l :=
  (C3_normalizers_no_raise [("repository", .dict [("name", PyVal.none)]), ("push", .dict [])] (by decide)).1


/-- C8: in the select, insert-on-conflict-ignore, re-select resolver run
with each statement observing its own table snapshot, resolution fails
exactly when the first select misses, the insert then loses to an
existing row, and the re-select still finds no row; hence a row present
at any of the observed snapshots (a pre-existing duplicate included)
always yields an identifier. -/
theorem C8_get_or_create_failure_characterization (t1 t2 t3 : List RepoRow) (n : String)
    (newId : Nat) :
    _get_or_create_repo_steps t1 t2 t3 n newId = Option.none ↔
      (selectRepoId t1 n = Option.none
        ∧ t2.any (fun r => r.full_name == n) = true
        ∧ selectRepoId t3 n = Option.none) := by
  unfold _get_or_create_repo_steps insertRepoOnConflict
  cases h1 : selectRepoId t1 n with
  | some i => simp [h1]
  | none =>
    cases h2 : t2.any (fun r => r.full_name == n) with
    | true => simp [h2]
    | false => simp [h2]

/-- C9: mark_image_deleted branches on Python truthiness of the tag, so
an empty-string tag behaves exactly like an absent tag: the allow-list
update matches by name only and the pull flip covers every tag of the
repository. -/
theorem C9_empty_tag_is_repo_wide (db : DB) (repository : Option String) (now : Nat) :
    mark_image_deleted db repository (some "") now
      = mark_image_deleted db repository Option.none now := by
  simp [mark_image_deleted, optTruthy]

/-- C10: the delete normalizer yields a pair with an absent repository for
an artifact payload that carries tags but no repository name anywhere, and
the handler then calls mark_image_deleted with a NULL repository instead of
answering ignored. -/
theorem C10_none_repository_delete :
    parse_harbor_delete payloadDeleteNoRepo = .ok [(.none, .str "v1")]
    ∧ ∀ (db : DB) (now : Nat),
        webhookCore payloadDeleteNoRepo db now
          = .ok (mark_image_deleted db Option.none (some "v1") now, Resp.okDeleted 1) :=
  ⟨rfl, fun _ _ => rfl⟩

/-- C7: with a non-empty secret configured, a request whose token is
missing or different from the secret is answered 401 with the store
untouched, whatever the body holds (the gate runs before the body is
read). -/
theorem C7_auth_gate (s : String) (token : Option String) (body : Option PyVal) (db : DB)
    (now : Nat) (hs : s ≠ "") (ht : token ≠ some s) :
    handleWebhook (some s) token body db now = (db, Resp.unauthorized) := by
  have h1 : optTruthy (some s) = true := by simp [optTruthy, hs]
  have h2 : (token == some s) = false := beq_eq_false_iff_ne.mpr ht
  simp [handleWebhook, h1, h2]

/-- C7 witness: missing token against secret sec. -/
theorem C7_auth_gate_witness :
    handleWebhook (some "sec") Option.none (some (.dict [])) db0 3 = (db0, Resp.unauthorized) :=
  C7_auth_gate "sec" Option.none (some (.dict [])) db0 3 (by decide) (by decide)

/-- C1 counterexample: in one delete request whose first pair fails with a
persistence error (a truthy list tag that the execute cannot bind to the
text column) and whose second pair app:v1 would succeed, the endpoint
answers db error with the store left exactly as before - the second pair
was not applied, although applying it would have changed the allow-list
row. -/
theorem C1_counterexample :
    webhookCore payloadMixedDelete dbC1 5 = .ok (dbC1, Resp.dbError)
    ∧ mark_image_deleted dbC1 (some "app") (some "v1") 5 ≠ dbC1 :=
  ⟨rfl, by decide⟩

/-- C1 amended: each pair runs in its own unit of work, so the pairs
before the first failing one stay applied (no rollback), but the loop
stops at the first failure and reports the request failed; the failing
pair and every later pair are not applied. -/
theorem C1_failure_stops_loop (apply : (PyVal × PyVal) → DB → Except Unit DB)
    (pre : List (PyVal × PyVal)) (p : PyVal × PyVal) (post : List (PyVal × PyVal))
    (db db' : DB) (hpre : applyAll apply pre db = .ok db') (hp : apply p db' = .error ()) :
    applyLoop apply (pre ++ p :: post) db = (db', false) := by
  induction pre generalizing db with
  | nil =>
    simp only [applyAll] at hpre
    cases hpre
    simp [applyLoop, hp]
  | cons a tl ih =>
    rw [List.cons_append]
    cases ha : apply a db with
    | ok db1 =>
      simp only [applyAll, ha] at hpre
      simp only [applyLoop, ha]
      exact ih db1 hpre
    | error e =>
      simp only [applyAll, ha] at hpre
      cases hpre

/-- C1 amended witness: the applied prefix app:v1 is retained while the
failing pair stops the loop. -/
theorem C1_failure_stops_loop_witness :
    applyLoop (deleteApply 5)
        ([(PyVal.str "app", PyVal.str "v1")] ++ (PyVal.str "app", PyVal.list [.str "x"]) :: []) dbC1
      = (mark_image_deleted dbC1 (some "app") (some "v1") 5, false) :=
  C1_failure_stops_loop (deleteApply 5) [(PyVal.str "app", PyVal.str "v1")]
    (PyVal.str "app", PyVal.list [.str "x"]) [] dbC1
    (mark_image_deleted dbC1 (some "app") (some "v1") 5) rfl rfl

/- ============  Lemmas about mark_image_deleted (for C5)  ============ -/

theorem selectRepoIdP_some_eq (rs : List RepoRow) (s : String) :
    selectRepoIdP rs (some s) = selectRepoId rs s := rfl

/-- Marked version of an allow-list row: deletion markers set to now. -/
def aiDel (now : Nat) (a : AllowedImageRow) : AllowedImageRow :=
  { a with deleted_at := some now, harbor_deleted := true, harbor_deleted_at := some now }

theorem mark_deleted_allowed_images (db : DB) (repository tag : Option String) (now : Nat) :
    (mark_image_deleted db repository tag now).allowed_images
      = if optTruthy tag then
          db.allowed_images.map
            (fun a => if eqParam a.name repository && eqParam a.tag tag then aiDel now a else a)
        else
          db.allowed_images.map
            (fun a => if eqParam a.name repository then aiDel now a else a) := by
  unfold mark_image_deleted aiDel
  cases hto : optTruthy tag with
  | false =>
    simp only [hto, Bool.false_eq_true, if_false]
    cases h : selectRepoIdP db.repos repository with
    | none => simp [h]
    | some rid => simp [h]
  | true =>
    simp only [hto, if_true]
    cases h : selectRepoIdP db.repos repository with
    | none => simp [h]
    | some rid =>
      cases h2 : selectTagIdP db.tags rid tag with
      | none => simp [h, h2]
      | some tid => simp [h, h2]

theorem mark_deleted_pulls_unresolved (db : DB) (repository tag : Option String) (now : Nat)
    (h : selectRepoIdP db.repos repository = Option.none) :
    (mark_image_deleted db repository tag now).image_pulls = db.image_pulls := by
  unfold mark_image_deleted
  cases hto : optTruthy tag with
  | false => simp [hto, h]
  | true => simp [hto, h]

theorem mark_deleted_pulls_repo_wide (db : DB) (repository : Option String) (now : Nat)
    (rid : Nat) (h : selectRepoIdP db.repos repository = some rid) :
    (mark_image_deleted db repository Option.none now).image_pulls
      = db.image_pulls.map (fun p =>
          if ((db.tags.filter (fun x => x.repository_id == rid)).map (fun x => x.id)).contains p.tag_id
          then { p with is_pulled := false } else p) := by
  unfold mark_image_deleted
  simp [optTruthy, h]

/-- C5: repository-wide Mark Deleted stamps the deletion markers on every
allow-list row matching the repository name (leaving other rows as they
were), flips is_pulled off on the pull row of every tag belonging to the
repository, and when the repository name resolves to no row it is a no-op
on the pull table rather than a failure. -/
theorem C5_repo_wide_delete (db : DB) (r : String) (now : Nat) :
    (∀ a ∈ db.allowed_images, a.name = r →
        aiDel now a ∈ (mark_image_deleted db (some r) Option.none now).allowed_images)
    ∧ (∀ a ∈ db.allowed_images, a.name ≠ r →
        a ∈ (mark_image_deleted db (some r) Option.none now).allowed_images)
    ∧ (∀ rid, selectRepoId db.repos r = some rid →
        ∀ p ∈ db.image_pulls,
          p.tag_id ∈ (db.tags.filter (fun x => x.repository_id == rid)).map (fun x => x.id) →
            { p with is_pulled := false } ∈ (mark_image_deleted db (some r) Option.none now).image_pulls)
    ∧ (selectRepoId db.repos r = Option.none →
        (mark_image_deleted db (some r) Option.none now).image_pulls = db.image_pulls) := by
  refine ⟨?_, ?_, ?_, ?_⟩
  · intro a ha hn
    rw [mark_deleted_allowed_images]
    simp only [optTruthy, Bool.false_eq_true, if_false]
    have h2 : (if eqParam a.name (some r) then aiDel now a else a) = aiDel now a := by
      simp [eqParam, hn]
    exact h2 ▸ List.mem_map_of_mem _ ha
  · intro a ha hn
    rw [mark_deleted_allowed_images]
    simp only [optTruthy, Bool.false_eq_true, if_false]
    have h2 : (if eqParam a.name (some r) then aiDel now a else a) = a := by
      simp [eqParam, hn]
    exact h2 ▸ List.mem_map_of_mem _ ha
  · intro rid hrid p hp htid
    rw [mark_deleted_pulls_repo_wide db (some r) now rid ((selectRepoIdP_some_eq db.repos r).trans hrid)]
    have h2 : (if ((db.tags.filter (fun x => x.repository_id == rid)).map (fun x => x.id)).contains p.tag_id
        then { p with is_pulled := false } else p) = { p with is_pulled := false } := by
      simp only [List.contains_iff_exists_mem_beq]
      rw [if_pos]
      exact ⟨p.tag_id, htid, by simp⟩
    exact h2 ▸ List.mem_map_of_mem _ hp
  · intro h
    exact mark_deleted_pulls_unresolved db (some r) Option.none now
      ((selectRepoIdP_some_eq db.repos r).trans h)

/-- C5 witness: in dbC5, the repo-wide delete flips the pull row of tag
v1 (id 11) to not pulled. -/
theorem C5_repo_wide_delete_witness :
    ({ tag_id := 11, is_pulled := false, last_pulled_at := 3 } : PullRow)
      ∈ (mark_image_deleted dbC5 (some "app") Option.none 9).image_pulls :=
  (C5_repo_wide_delete dbC5 "app" 9).2.2.1 1 rfl
    { tag_id := 11, is_pulled := true, last_pulled_at := 3 } (by decide) (by decide)

/- ============  Lemmas about the resolver and mark_image_pulled (for C4)  ============ -/

theorem get_or_create_repo_eq (db : DB) (n : String) :
    _get_or_create_repo db n =
      match selectRepoId db.repos n with
      | some i => (db, some i)
      | Option.none =>
        ({ db with repos := db.repos ++ [{ id := db.nextRepoId, full_name := n }],
                   nextRepoId := db.nextRepoId + 1 }, some db.nextRepoId) := by
  unfold _get_or_create_repo insertRepoOnConflict
  cases h : selectRepoId db.repos n with
  | some i => simp
  | none =>
    have hfind : db.repos.find? (fun r => r.full_name == n) = Option.none := by
      unfold selectRepoId at h
      exact Option.map_eq_none'.mp h
    have hany : db.repos.any (fun r => r.full_name == n) = false := by
      rw [Bool.eq_false_iff]
      intro hc
      rcases List.any_eq_true.mp hc with ⟨x, hx, hpx⟩
      exact absurd hpx (List.find?_eq_none.mp hfind x hx)
    simp [hany]

theorem get_or_create_tag_eq (db : DB) (rid : Nat) (t : String) :
    _get_or_create_tag db rid t =
      match selectTagId db.tags rid t with
      | some i => (db, some i)
      | Option.none =>
        ({ db with tags := db.tags ++ [{ id := db.nextTagId, repository_id := rid, tag := t }],
                   nextTagId := db.nextTagId + 1 }, some db.nextTagId) := by
  unfold _get_or_create_tag insertTagOnConflict
  cases h : selectTagId db.tags rid t with
  | some i => simp
  | none =>
    have hfind : db.tags.find? (fun x => x.repository_id == rid && x.tag == t) = Option.none := by
      unfold selectTagId at h
      exact Option.map_eq_none'.mp h
    have hany : db.tags.any (fun x => x.repository_id == rid && x.tag == t) = false := by
      rw [Bool.eq_false_iff]
      intro hc
      rcases List.any_eq_true.mp hc with ⟨x, hx, hpx⟩
      exact absurd hpx (List.find?_eq_none.mp hfind x hx)
    simp [hany]

theorem selectRepoId_append_self (rs : List RepoRow) (n : String) (N : Nat)
    (h : selectRepoId rs n = Option.none) :
    selectRepoId (rs ++ [{ id := N, full_name := n }]) n = some N := by
  unfold selectRepoId at *
  rw [find?_append_of_none _ _ (Option.map_eq_none'.mp h)]
  simp

theorem selectTagId_append_self (ts : List TagRow) (rid : Nat) (t : String) (M : Nat)
    (h : selectTagId ts rid t = Option.none) :
    selectTagId (ts ++ [{ id := M, repository_id := rid, tag := t }]) rid t = some M := by
  unfold selectTagId at *
  rw [find?_append_of_none _ _ (Option.map_eq_none'.mp h)]
  simp

theorem filter_length_one_of_find {α : Type} (p : α → Bool) (l : List α) (x : α)
    (hfind : l.find? p = some x) (hle : (l.filter p).length ≤ 1) :
    (l.filter p).length = 1 := by
  have hmem : x ∈ l := List.mem_of_find?_eq_some hfind
  have hpred : p x = true := List.find?_some hfind
  have hx : x ∈ l.filter p := List.mem_filter.mpr ⟨hmem, hpred⟩
  have hpos : 0 < (l.filter p).length := List.length_pos.mpr (List.ne_nil_of_mem hx)
  omega

theorem filter_append_single_of_none {α : Type} (p : α → Bool) (l : List α) (x : α)
    (hfind : l.find? p = Option.none) (hx : p x = true) :
    ((l ++ [x]).filter p).length = 1 := by
  have hnil : l.filter p = [] :=
    List.filter_eq_nil_iff.mpr (fun a ha => by simpa using List.find?_eq_none.mp hfind a ha)
  rw [List.filter_append, hnil]
  simp [hx]

theorem resolveRepoTag_ok (db : DB) (r t : String) :
    ∃ db2 rid tid, resolveRepoTag db r t = (db2, some (rid, tid))
      ∧ db2.image_pulls = db.image_pulls
      ∧ db2.allowed_images = db.allowed_images
      ∧ selectRepoId db2.repos r = some rid
      ∧ selectTagId db2.tags rid t = some tid
      ∧ ((db.repos.filter (fun x => x.full_name == r)).length ≤ 1 →
          (db2.repos.filter (fun x => x.full_name == r)).length = 1)
      ∧ ((db.tags.filter (fun x => x.repository_id == rid && x.tag == t)).length ≤ 1 →
          (db2.tags.filter (fun x => x.repository_id == rid && x.tag == t)).length = 1) := by
  unfold resolveRepoTag
  rw [get_or_create_repo_eq]
  cases h1 : selectRepoId db.repos r with
  | some i =>
    dsimp only
    rw [get_or_create_tag_eq]
    cases h2 : selectTagId db.tags i t with
    | some j =>
      refine ⟨db, i, j, rfl, rfl, rfl, h1, h2, ?_, ?_⟩
      · intro hle
        rcases Option.map_eq_some'.mp h1 with ⟨row, hfind, hid⟩
        exact filter_length_one_of_find _ _ _ hfind hle
      · intro hle
        rcases Option.map_eq_some'.mp h2 with ⟨row, hfind, hid⟩
        exact filter_length_one_of_find _ _ _ hfind hle
    | none =>
      refine ⟨_, i, db.nextTagId, rfl, rfl, rfl, h1, ?_, ?_, ?_⟩
      · exact selectTagId_append_self db.tags i t db.nextTagId h2
      · intro hle
        rcases Option.map_eq_some'.mp h1 with ⟨row, hfind, hid⟩
        exact filter_length_one_of_find _ _ _ hfind hle
      · intro hle
        exact filter_append_single_of_none _ _ _ (Option.map_eq_none'.mp h2) (by simp)
  | none =>
    dsimp only
    rw [get_or_create_tag_eq]
    cases h2 : selectTagId db.tags db.nextRepoId t with
    | some j =>
      refine ⟨_, db.nextRepoId, j, rfl, rfl, rfl, ?_, h2, ?_, ?_⟩
      · exact selectRepoId_append_self db.repos r db.nextRepoId h1
      · intro hle
        exact filter_append_single_of_none _ _ _ (Option.map_eq_none'.mp h1) (by simp)
      · intro hle
        rcases Option.map_eq_some'.mp h2 with ⟨row, hfind, hid⟩
        exact filter_length_one_of_find _ _ _ hfind hle
    | none =>
      refine ⟨_, db.nextRepoId, db.nextTagId, rfl, rfl, rfl, ?_, ?_, ?_, ?_⟩
      · exact selectRepoId_append_self db.repos r db.nextRepoId h1
      · exact selectTagId_append_self db.tags db.nextRepoId t db.nextTagId h2
      · intro hle
        exact filter_append_single_of_none _ _ _ (Option.map_eq_none'.mp h1) (by simp)
      · intro hle
        exact filter_append_single_of_none _ _ _ (Option.map_eq_none'.mp h2) (by simp)

theorem resolveRepoTag_hit (db2 : DB) (r t : String) (rid tid : Nat)
    (h1 : selectRepoId db2.repos r = some rid) (h2 : selectTagId db2.tags rid t = some tid) :
    resolveRepoTag db2 r t = (db2, some (rid, tid)) := by
  unfold resolveRepoTag _get_or_create_repo _get_or_create_tag
  simp [h1, h2]

theorem mark_image_pulled_eq (db : DB) (r t : String) (now : Nat) (db2 : DB) (rid tid : Nat)
    (h : resolveRepoTag db r t = (db2, some (rid, tid))) :
    mark_image_pulled db r t now = .ok (applyPull db2 r t tid now) := by
  unfold mark_image_pulled
  rw [h]

theorem applyPull_repos (db : DB) (r t : String) (tid now : Nat) :
    (applyPull db r t tid now).repos = db.repos := rfl

theorem applyPull_tags (db : DB) (r t : String) (tid now : Nat) :
    (applyPull db r t tid now).tags = db.tags := rfl

theorem pullUpd_tag_id (tid n : Nat) (p : PullRow) : (pullUpd tid n p).tag_id = p.tag_id := by
  unfold pullUpd
  split <;> rfl

theorem pullUpd_pullUpd (tid t1 t2 : Nat) (p : PullRow) :
    pullUpd tid t2 (pullUpd tid t1 p) = pullUpd tid t2 p := by
  unfold pullUpd
  cases h : p.tag_id == tid with
  | true => simp [h]
  | false => simp [h]

theorem aiUpd_aiUpd (r t : String) (tid : Nat) (a : AllowedImageRow) :
    aiUpd r t tid (aiUpd r t tid a) = aiUpd r t tid a := by
  unfold aiUpd
  cases h : a.name == r && a.tag == t with
  | true => simp [h]
  | false => simp [h]

theorem filter_length_map_pullUpd (P : List PullRow) (tid n : Nat) :
    ((P.map (pullUpd tid n)).filter (fun p => p.tag_id == tid)).length
      = (P.filter (fun p => p.tag_id == tid)).length := by
  induction P with
  | nil => rfl
  | cons a t ih =>
    cases h : a.tag_id == tid with
    | true => simp [List.filter_cons, pullUpd_tag_id, h, ih]
    | false => simp [List.filter_cons, pullUpd_tag_id, h, ih]

theorem map_pullUpd_of_no_match (P : List PullRow) (tid n : Nat)
    (h : (P.filter (fun p => p.tag_id == tid)).length = 0) :
    P.map (pullUpd tid n) = P := by
  apply map_eq_self_of_mem
  intro p hp
  unfold pullUpd
  rw [if_neg]
  intro hc
  have hmem : p ∈ P.filter (fun p => p.tag_id == tid) := List.mem_filter.mpr ⟨hp, hc⟩
  rw [List.length_eq_zero] at h
  simp [h] at hmem

theorem find?_map_pullUpd (P : List PullRow) (tid n : Nat) :
    (P.map (pullUpd tid n)).find? (fun p => p.tag_id == tid)
      = (P.find? (fun p => p.tag_id == tid)).map (pullUpd tid n) := by
  induction P with
  | nil => rfl
  | cons a tl ih =>
    cases h : a.tag_id == tid with
    | true =>
      have h2 : ((pullUpd tid n a).tag_id == tid) = true := by rw [pullUpd_tag_id]; exact h
      rw [List.map_cons, List.find?_cons_of_pos (p := fun q : PullRow => q.tag_id == tid) _ h2,
          List.find?_cons_of_pos (p := fun q : PullRow => q.tag_id == tid) _ h]
      rfl
    | false =>
      have h2 : ¬ ((pullUpd tid n a).tag_id == tid) = true := by
        rw [pullUpd_tag_id]; simp [h]
      have h3 : ¬ (a.tag_id == tid) = true := by simp [h]
      rw [List.map_cons, List.find?_cons_of_neg (p := fun q : PullRow => q.tag_id == tid) _ h2,
          List.find?_cons_of_neg (p := fun q : PullRow => q.tag_id == tid) _ h3, ih]

theorem upsertPulls_of_no_row (P : List PullRow) (tid n : Nat)
    (h0 : (P.filter (fun p => p.tag_id == tid)).length = 0) :
    upsertPulls P tid n = P ++ [{ tag_id := tid, is_pulled := true, last_pulled_at := n }] := by
  simp only [upsertPulls]
  rw [if_pos (show ((P.filter (fun p => p.tag_id == tid)).length == 0) = true by simpa using h0)]
  rw [map_pullUpd_of_no_match P tid n h0]

theorem upsertPulls_of_row (P : List PullRow) (tid n : Nat)
    (h0 : ¬ (P.filter (fun p => p.tag_id == tid)).length = 0) :
    upsertPulls P tid n = P.map (pullUpd tid n) := by
  simp only [upsertPulls]
  rw [if_neg (show ¬ (((P.filter (fun p => p.tag_id == tid)).length == 0) = true) by simpa using h0)]

theorem upsertPulls_upsertPulls (P : List PullRow) (tid t1 t2 : Nat) :
    upsertPulls (upsertPulls P tid t1) tid t2 = upsertPulls P tid t2 := by
  by_cases h0 : (P.filter (fun p => p.tag_id == tid)).length = 0
  · rw [upsertPulls_of_no_row P tid t1 h0, upsertPulls_of_no_row P tid t2 h0]
    have hnil : P.filter (fun p => p.tag_id == tid) = [] := List.length_eq_zero.mp h0
    have hflt : ¬ ((P ++ [({ tag_id := tid, is_pulled := true, last_pulled_at := t1 } : PullRow)]).filter
        (fun p => p.tag_id == tid)).length = 0 := by
      rw [List.filter_append, hnil]
      simp
    rw [upsertPulls_of_row _ tid t2 hflt, List.map_append, map_pullUpd_of_no_match P tid t2 h0]
    simp [pullUpd]
  · rw [upsertPulls_of_row P tid t1 h0, upsertPulls_of_row P tid t2 h0]
    have h1 : ¬ ((P.map (pullUpd tid t1)).filter (fun p => p.tag_id == tid)).length = 0 := by
      rw [filter_length_map_pullUpd]
      exact h0
    rw [upsertPulls_of_row _ tid t2 h1, List.map_map]
    exact congrArg (fun f => P.map f) (funext (pullUpd_pullUpd tid t1 t2))

theorem applyPull_applyPull (db : DB) (r t : String) (tid : Nat) (t1 t2 : Nat) :
    applyPull (applyPull db r t tid t1) r t tid t2 = applyPull db r t tid t2 := by
  unfold applyPull
  have h1 : upsertPulls (upsertPulls db.image_pulls tid t1) tid t2
      = upsertPulls db.image_pulls tid t2 := upsertPulls_upsertPulls db.image_pulls tid t1 t2
  have h2 : (db.allowed_images.map (aiUpd r t tid)).map (aiUpd r t tid)
      = db.allowed_images.map (aiUpd r t tid) := by
    rw [List.map_map]
    exact congrArg (fun f => db.allowed_images.map f) (funext (aiUpd_aiUpd r t tid))
  simp [h1, h2]

theorem pullStateOf_applyPull (db2 : DB) (r t : String) (rid tid : Nat) (now : Nat)
    (hsr : selectRepoId db2.repos r = some rid) (hst : selectTagId db2.tags rid t = some tid) :
    pullStateOf (applyPull db2 r t tid now) r t = some (true, now) := by
  unfold pullStateOf
  rw [applyPull_repos, hsr]
  dsimp only
  rw [applyPull_tags, hst]
  dsimp only
  have hpulls : (applyPull db2 r t tid now).image_pulls = upsertPulls db2.image_pulls tid now := rfl
  rw [hpulls]
  by_cases h0 : (db2.image_pulls.filter (fun p => p.tag_id == tid)).length = 0
  · rw [upsertPulls_of_no_row _ _ _ h0]
    have hfind : db2.image_pulls.find? (fun p => p.tag_id == tid) = Option.none := by
      rw [List.find?_eq_none]
      intro x hx hpx
      have hmem : x ∈ db2.image_pulls.filter (fun p => p.tag_id == tid) :=
        List.mem_filter.mpr ⟨hx, hpx⟩
      rw [List.length_eq_zero.mp h0] at hmem
      simp at hmem
    rw [find?_append_of_none _ _ hfind]
    simp
  · rw [upsertPulls_of_row _ _ _ h0, find?_map_pullUpd]
    have hne : db2.image_pulls.filter (fun p => p.tag_id == tid) ≠ [] := by
      intro hc
      rw [hc] at h0
      exact h0 rfl
    rcases List.exists_mem_of_ne_nil _ hne with ⟨q, hq⟩
    rcases List.mem_filter.mp hq with ⟨hqm, hqp⟩
    cases hfq : db2.image_pulls.find? (fun p => p.tag_id == tid) with
    | none => exact absurd hqp (List.find?_eq_none.mp hfq q hqm)
    | some w =>
      have hw : (w.tag_id == tid) = true := List.find?_some (p := fun q : PullRow => q.tag_id == tid) hfq
      simp [pullUpd, hw]

/-- C4: Mark Pulled is idempotent up to the timestamp: applying it twice
for the same (repo, tag) at times t1 then t2 produces exactly the state of
applying it once at t2; under the unique-key constraints of the repos and
tags tables the final state holds exactly one matching Repository row and
one matching Tag row however many times the transition ran, and the pull
state reads back as pulled at the second call's time. -/
theorem C4_mark_pulled_idempotent (db : DB) (r t : String) (t1 t2 : Nat)
    (hr : (db.repos.filter (fun x => x.full_name == r)).length ≤ 1)
    (ht : ∀ rid, (db.tags.filter (fun x => x.repository_id == rid && x.tag == t)).length ≤ 1) :
    (mark_image_pulled db r t t1 >>= fun d => mark_image_pulled d r t t2)
        = mark_image_pulled db r t t2
    ∧ ∀ db', mark_image_pulled db r t t2 = .ok db' →
        pullStateOf db' r t = some (true, t2)
        ∧ (db'.repos.filter (fun x => x.full_name == r)).length = 1
        ∧ ∀ rid, selectRepoId db'.repos r = some rid →
            (db'.tags.filter (fun x => x.repository_id == rid && x.tag == t)).length = 1 := by
  obtain ⟨db2, rid, tid, hres, hpulls, hai, hsr, hst, hcr, hct⟩ := resolveRepoTag_ok db r t
  constructor
  · rw [mark_image_pulled_eq db r t t1 db2 rid tid hres, exceptBindOk]
    have hres2 : resolveRepoTag (applyPull db2 r t tid t1) r t
        = (applyPull db2 r t tid t1, some (rid, tid)) := by
      apply resolveRepoTag_hit
      · rw [applyPull_repos]; exact hsr
      · rw [applyPull_tags]; exact hst
    rw [mark_image_pulled_eq _ r t t2 _ rid tid hres2,
        mark_image_pulled_eq db r t t2 db2 rid tid hres, applyPull_applyPull]
  · intro db' hdb'
    rw [mark_image_pulled_eq db r t t2 db2 rid tid hres] at hdb'
    injection hdb' with h
    subst h
    refine ⟨?_, ?_, ?_⟩
    · exact pullStateOf_applyPull db2 r t rid tid t2 hsr hst
    · rw [applyPull_repos]; exact hcr hr
    · intro rid' hrid'
      rw [applyPull_repos] at hrid'
      rw [hsr] at hrid'
      have hr2 : rid = rid' := Option.some.inj hrid'
      subst hr2
      rw [applyPull_tags]
      exact hct (ht rid)

/-- The store produced by Mark Pulled of app:v1 at time 2 on db0. -/
def dbPulled : DB :=
  { repos := [{ id := 1, full_name := "app" }],
    tags := [{ id := 1, repository_id := 1, tag := "v1" }],
    image_pulls := [{ tag_id := 1, is_pulled := true, last_pulled_at := 2 }],
    allowed_images := [], nextRepoId := 2, nextTagId := 2 }

/-- C4 witness: both parts evaluated on the empty store at times 1 and 2. -/
theorem C4_mark_pulled_idempotent_witness :
    (mark_image_pulled db0 "app" "v1" 1 >>= fun d => mark_image_pulled d "app" "v1" 2)
        = mark_image_pulled db0 "app" "v1" 2
    ∧ pullStateOf dbPulled "app" "v1" = some (true, 2) := by
  have h := C4_mark_pulled_idempotent db0 "app" "v1" 1 2 (by decide) (fun rid => by simp [db0])
  exact ⟨h.1, (h.2 dbPulled (by rfl)).1⟩
